import Mathlib

/-!
Shallow embedding of `src/main.rs` of the `dirio` repository.

The program launches a child command and periodically samples the disk
usage of a directory (via the external `du` utility), emitting rows of
`(elapsed, disk_usage, delta, peak)`.

Modelling conventions:
* Rust `isize` values are `Int`; where the source performs unchecked
  machine arithmetic (the `delta` subtraction in `Row::new`) the result
  is reduced with `wrap64`, the 64-bit two's-complement wrap.
  `u128` (`elapsed`) is modelled as `Nat`.
* Byte strings (the stdout of `du`) are `List Nat` of byte values.
* `Instant` values are opaque millisecond timestamps (`Nat`); the wall
  clock is an input to the model (the `nows` field of `Env`).
* Fallible operations return explicit outcome types; a Rust panic
  (`.expect`) is a distinct outcome from a returned `Err`.
-/

/-- Two's-complement wrap into the 64-bit signed range, the behaviour of
unchecked `isize` arithmetic in the source (release profile). -/
def wrap64 (x : Int) : Int := (x + 2 ^ 63) % 2 ^ 64 - 2 ^ 63

/-- Predicate: `x` is representable as a 64-bit `isize`. -/
def isizeRange (x : Int) : Prop := -(2 ^ 63) ≤ x ∧ x < 2 ^ 63

instance (x : Int) : Decidable (isizeRange x) := by
  unfold isizeRange; infer_instance

/-- The `struct Row` of the source: one emitted record. `elapsed: u128`,
the remaining fields `isize`. -/
structure Row where
  elapsed : Nat
  disk_usage : Int
  delta : Int
  peak : Int
deriving DecidableEq, Repr

/-- Embedding of `Row::new(elapsed, disk_usage, initial_disk_usage, peak)`:
stores the
arguments and computes `delta = disk_usage - initial_disk_usage`, an
unchecked `isize` subtraction (hence `wrap64`). -/
def Row.new (elapsed : Nat) (disk_usage initial_disk_usage peak : Int) : Row :=
  { elapsed := elapsed
    disk_usage := disk_usage
    delta := wrap64 (disk_usage - initial_disk_usage)
    peak := peak }

/-- The `struct Monitor` of the source (the csv output writer is modelled
separately as the
rows/effects the operations emit; `start_time: Instant` is an opaque
millisecond timestamp). -/
structure Monitor where
  start_time : Nat
  initial_disk_usage : Int
  peak_disk_usage : Int
deriving DecidableEq, Repr

/-- Embedding of `Monitor::new(writer, initial_disk_usage)`: captures the
start time
and sets `peak_disk_usage = initial_disk_usage`. -/
def Monitor.new (start_time : Nat) (initial_disk_usage : Int) : Monitor :=
  { start_time := start_time
    initial_disk_usage := initial_disk_usage
    peak_disk_usage := initial_disk_usage }

/-- Embedding of `Monitor::add_disk_usage(&mut self, size)`: computes the
elapsed time,
updates `peak_disk_usage = max(peak_disk_usage, size)`, and serializes a
`Row`. Returns the updated monitor together with the emitted row.
`now` is the current wall-clock instant (`self.start_time.elapsed()` is
`now - start_time`, never negative for a real clock, so truncated `Nat`
subtraction is faithful). The csv serialize/flush is modelled as
succeeding; no claim concerns `WriteError`. -/
def Monitor.add_disk_usage (m : Monitor) (now : Nat) (size : Int) : Monitor × Row :=
  let elapsed := now - m.start_time
  let peak := max m.peak_disk_usage size
  ({ m with peak_disk_usage := peak },
   Row.new elapsed size m.initial_disk_usage peak)

/-- Feed a sequence of `(now, size)` measurements to a monitor through
`add_disk_usage`, collecting the emitted rows in order. -/
def feed (m : Monitor) : List (Nat × Int) → List Row
  | [] => []
  | (now, size) :: rest =>
    let step := m.add_disk_usage now size
    step.2 :: feed step.1 rest

/-- Embedding of `memchr(needle, haystack)`: index of the first occurrence
of a byte,
as used on `cmd.stdout`. -/
def memchr (needle : Nat) : List Nat → Option Nat
  | [] => none
  | b :: rest =>
    if b = needle then some 0 else (memchr needle rest).map (· + 1)

/-- Accumulating core of `str::parse::<isize>` on ASCII digits: consumes
decimal digit bytes, failing on any non-digit byte. -/
def digitsVal : List Nat → Nat → Option Nat
  | [], acc => some acc
  | b :: rest, acc =>
    if 48 ≤ b ∧ b ≤ 57 then digitsVal rest (10 * acc + (b - 48)) else none

/-- Value of a non-empty all-digit byte string. -/
def digitsNum (bs : List Nat) : Option Nat :=
  match bs with
  | [] => none
  | _ :: _ => digitsVal bs 0

/-- The composition `str::from_utf8` + `str::parse::<isize>` applied to a
byte slice, as in `get_disk_usage`. A successful parse requires an
optional ASCII sign followed by at least one ASCII digit, with the value
in the `isize` (64-bit) range; Rust's per-step `checked` accumulation
fails exactly when the final value is out of range. Any byte sequence
that is not of this shape yields an error from one of the two stages
(invalid UTF-8, or a character `parse` rejects), and both stages' errors
become the same `anyhow` error in the source, so they are not
distinguished here. -/
def parse_isize (bs : List Nat) : Option Int :=
  match bs with
  | [] => none
  | b :: rest =>
    if b = 43 then
      (digitsNum rest).bind fun n =>
        if (n : Int) < 2 ^ 63 then some (n : Int) else none
    else if b = 45 then
      (digitsNum rest).bind fun n =>
        if (n : Int) ≤ 2 ^ 63 then some (-(n : Int)) else none
    else
      (digitsNum bs).bind fun n =>
        if (n : Int) < 2 ^ 63 then some (n : Int) else none

/-- Outcome of `get_disk_usage`: a returned `Ok(size)`, a returned `Err`
(propagated with `?`), or a panic (`.expect`). -/
inductive MeasureOutcome where
  | ok (size : Int)
  | errReturn
  | panicked
deriving DecidableEq, Repr

/-- Embedding of `get_disk_usage(path)` applied to the bytes that
`du -d 0 path` wrote to
stdout (the invocation of `du` itself is modelled as succeeding; its
stdout is the model's input). The memchr call searches for the first tab:
`.expect` panics when there is none; otherwise the prefix before the tab
goes through `from_utf8` and `parse::<isize>`, whose failures are
returned as errors via `?`. -/
def get_disk_usage (stdout : List Nat) : MeasureOutcome :=
  match memchr 9 stdout with
  | none => .panicked
  | some i =>
    match parse_isize (stdout.take i) with
    | none => .errReturn
    | some v => .ok v

/-- Observable effects of a run, in program order. `measure i` is the
`i`-th invocation of `du`; `writeRow` is one serialized+flushed record. -/
inductive Effect where
  | openSink
  | spawnChild
  | measure (i : Nat)
  | writeRow (r : Row)
  | sleep
deriving DecidableEq, Repr

/-- Terminal result of a run. `configError` covers the two `bail!` paths
for a missing / non-directory path; `measureError` a `MeasurementError`
propagated out of the loop; `panicked` the `.expect` panic inside
`get_disk_usage`. -/
inductive RunResult where
  | ok
  | configError
  | measureError
  | panicked
deriving DecidableEq, Repr

/-- The world the run is driven by: whether the target path exists and is
a directory, the stdout of each successive `du` invocation, the wall
clock at each successive `add_disk_usage` call, and the number of
`try_wait` polls that report the child still alive before the first
poll that reports it exited. -/
structure Env where
  pathExists : Bool
  pathIsDir : Bool
  startTime : Nat
  duOutput : Nat → List Nat
  nows : Nat → Nat
  aliveChecks : Nat

/-- The monitoring thread's closure: while `try_wait` reports the child
alive (`alive` remaining alive-polls), measure, record, sleep; once the
child has exited, one final measure+record with no sleep. `i` indexes
`du` invocations / clock readings. A failing measurement aborts
immediately with no record for that attempt. -/
def monitorThread (m : Monitor) (i : Nat) (alive : Nat) (env : Env) :
    List Effect × RunResult :=
  match alive with
  | 0 =>
    match get_disk_usage (env.duOutput i) with
    | .panicked => ([.measure i], .panicked)
    | .errReturn => ([.measure i], .measureError)
    | .ok size =>
      let step := m.add_disk_usage (env.nows i) size
      ([.measure i, .writeRow step.2], .ok)
  | k + 1 =>
    match get_disk_usage (env.duOutput i) with
    | .panicked => ([.measure i], .panicked)
    | .errReturn => ([.measure i], .measureError)
    | .ok size =>
      let step := m.add_disk_usage (env.nows i) size
      let rest := monitorThread step.1 (i + 1) k env
      (.measure i :: .writeRow step.2 :: .sleep :: rest.1, rest.2)

/-- Embedding of `main`: validates the target path (bailing before anything
else
happens), opens the output sink, takes the initial measurement,
constructs the `Monitor`, spawns the child, and runs the monitoring
thread (whose result `main` joins on and propagates). Sink creation and
child spawn are modelled as succeeding; no claim concerns their failure
modes. -/
def runMain (env : Env) : List Effect × RunResult :=
  if env.pathExists = false then ([], .configError)
  else if env.pathIsDir = false then ([], .configError)
  else
    match get_disk_usage (env.duOutput 0) with
    | .panicked => ([.openSink, .measure 0], .panicked)
    | .errReturn => ([.openSink, .measure 0], .measureError)
    | .ok init =>
      let m := Monitor.new env.startTime init
      let thread := monitorThread m 1 env.aliveChecks env
      (.openSink :: .measure 0 :: .spawnChild :: thread.1, thread.2)

/-- The rows written by a trace of effects, in order. -/
def writtenRows (t : List Effect) : List Row :=
  t.filterMap fun e =>
    match e with
    | .writeRow r => some r
    | _ => none

/-- Number of sleeps in a trace of effects. -/
def sleepCount (t : List Effect) : Nat :=
  (t.filter fun e => e = Effect.sleep).length

/-- Decimal digit bytes of a natural number, most significant first
(canonical encoder used to state claims about numeric fields). -/
def encNat (n : Nat) : List Nat :=
  if h : n < 10 then [48 + n]
  else encNat (n / 10) ++ [48 + n % 10]
termination_by n
decreasing_by exact Nat.div_lt_self (by omega) (by omega)

/-- Decimal byte representation of an integer (minus sign for negatives). -/
def encInt (v : Int) : List Nat :=
  if v < 0 then 45 :: encNat (-v).toNat else encNat v.toNat

/-! ### Helper lemmas -/

theorem wrap64_eq_self_iff (x : Int) : wrap64 x = x ↔ isizeRange x := by
  have e63 : (2 : Int) ^ 63 = 9223372036854775808 := by norm_num
  have e64 : (2 : Int) ^ 64 = 18446744073709551616 := by norm_num
  unfold wrap64 isizeRange
  rw [e63, e64]
  constructor
  · intro h
    have h1 : 0 ≤ (x + 9223372036854775808) % 18446744073709551616 :=
      Int.emod_nonneg _ (by norm_num)
    have h2 : (x + 9223372036854775808) % 18446744073709551616 <
        18446744073709551616 := Int.emod_lt_of_pos _ (by norm_num)
    omega
  · intro h
    have h3 : (x + 9223372036854775808) % 18446744073709551616 =
        x + 9223372036854775808 := Int.emod_eq_of_lt (by omega) (by omega)
    omega

theorem feed_peak_aux (inputs : List (Nat × Int)) (m : Monitor) :
    (∀ r ∈ feed m inputs, m.peak_disk_usage ≤ r.peak ∧ r.disk_usage ≤ r.peak) ∧
    List.Chain' (fun a b => a.peak ≤ b.peak) (feed m inputs) := by
  induction inputs generalizing m with
  | nil => simp [feed]
  | cons p rest ih =>
    obtain ⟨now, size⟩ := p
    have hih := ih ((m.add_disk_usage now size).1)
    constructor
    · intro r hr
      simp only [feed, List.mem_cons] at hr
      rcases hr with h | h
      · subst h
        refine ⟨?_, ?_⟩
        · exact le_max_left _ _
        · exact le_max_right _ _
      · have h2 := (hih.1 r h).1
        have h3 : m.peak_disk_usage ≤ (m.add_disk_usage now size).1.peak_disk_usage :=
          le_max_left _ _
        exact ⟨le_trans h3 h2, (hih.1 r h).2⟩
    · simp only [feed]
      rw [List.chain'_cons']
      refine ⟨?_, hih.2⟩
      intro y hy
      have hmem : y ∈ feed (m.add_disk_usage now size).1 rest :=
        List.mem_of_mem_head? hy
      exact (hih.1 y hmem).1

theorem feed_delta_aux (inputs : List (Nat × Int)) (m : Monitor) :
    ∀ r ∈ feed m inputs, r.delta = wrap64 (r.disk_usage - m.initial_disk_usage) := by
  induction inputs generalizing m with
  | nil => simp [feed]
  | cons p rest ih =>
    obtain ⟨now, size⟩ := p
    intro r hr
    simp only [feed, List.mem_cons] at hr
    rcases hr with h | h
    · subst h; rfl
    · exact ih ((m.add_disk_usage now size).1) r h

/-! ### Claims about the Monitor and Row -/

/-- C1: for every sequence of measurements fed to a single Monitor via
`add_disk_usage`, the emitted peaks are non-decreasing across successive
records, every record satisfies `peak ≥ disk_usage`, and every record
satisfies `peak ≥ initialDiskUsage`. -/
theorem add_disk_usage_peak_invariants (start_time : Nat) (initial : Int)
    (inputs : List (Nat × Int)) :
    List.Chain' (fun a b => a.peak ≤ b.peak)
      (feed (Monitor.new start_time initial) inputs) ∧
    ∀ r ∈ feed (Monitor.new start_time initial) inputs,
      r.disk_usage ≤ r.peak ∧ initial ≤ r.peak := by
  have h := feed_peak_aux inputs (Monitor.new start_time initial)
  exact ⟨h.2, fun r hr => ⟨(h.1 r hr).2, (h.1 r hr).1⟩⟩

/-- Witness for C1 at `initial = 0`, single measurement `5`. -/
theorem add_disk_usage_peak_invariants_witness :
    (Row.mk 0 5 5 5).disk_usage ≤ (Row.mk 0 5 5 5).peak ∧
    (0 : Int) ≤ (Row.mk 0 5 5 5).peak :=
  (add_disk_usage_peak_invariants 0 0 [(0, 5)]).2 (Row.mk 0 5 5 5) (by decide)

/-- C8: `add_disk_usage` leaves `start_time` and `initial_disk_usage`
unchanged; the updated state differs from the old one only in
`peak_disk_usage` (set to `max peak size`). -/
theorem add_disk_usage_frame (m : Monitor) (now : Nat) (size : Int) :
    (m.add_disk_usage now size).1.start_time = m.start_time ∧
    (m.add_disk_usage now size).1.initial_disk_usage = m.initial_disk_usage ∧
    (m.add_disk_usage now size).1 =
      { m with peak_disk_usage := max m.peak_disk_usage size } :=
  ⟨rfl, rfl, rfl⟩

/-- C10: the `delta` computed by `Row::new` is the unchecked (wrapping)
64-bit subtraction, and it equals the mathematical difference
`disk_usage - initial_disk_usage` exactly when that difference is
representable in `isize`. -/
theorem row_new_delta_wraps (elapsed : Nat) (disk_usage initial_disk_usage peak : Int) :
    (Row.new elapsed disk_usage initial_disk_usage peak).delta =
      wrap64 (disk_usage - initial_disk_usage) ∧
    ((Row.new elapsed disk_usage initial_disk_usage peak).delta =
        disk_usage - initial_disk_usage ↔
      isizeRange (disk_usage - initial_disk_usage)) :=
  ⟨rfl, wrap64_eq_self_iff _⟩

/-- Witness for C10 at concrete values `5 - 3`. -/
theorem row_new_delta_wraps_witness :
    (Row.new 0 5 3 0).delta = (5 : Int) - 3 :=
  (row_new_delta_wraps 0 5 3 0).2.mpr (by decide)

/-- C4 counterexample: with `initialDiskUsage = -1` and measurement
`2^63 - 1` (both representable in `isize`), the emitted `delta` is
`-2^63`, not the mathematical difference `2^63`. -/
theorem feed_delta_overflow_cex :
    (feed (Monitor.new 0 (-1)) [(0, 2 ^ 63 - 1)]).map Row.delta = [-(2 ^ 63)] ∧
    (-(2 ^ 63) : Int) ≠ 2 ^ 63 - 1 - (-1) := by decide

/-- C4 amended: every emitted record's `delta` is the wrapping 64-bit
subtraction of `initialDiskUsage` from `disk_usage`; it equals the exact
mathematical difference whenever that difference is representable in
`isize`. -/
theorem feed_delta_eq_sub (start_time : Nat) (initial : Int)
    (inputs : List (Nat × Int)) :
    ∀ r ∈ feed (Monitor.new start_time initial) inputs,
      r.delta = wrap64 (r.disk_usage - initial) ∧
      (isizeRange (r.disk_usage - initial) → r.delta = r.disk_usage - initial) := by
  intro r hr
  have h := feed_delta_aux inputs (Monitor.new start_time initial) r hr
  constructor
  · exact h
  · intro hrange
    rw [h]
    exact (wrap64_eq_self_iff _).mpr hrange

/-- Witness for C4 amended: initial `0`, measurement `5`, delta `5`. -/
theorem feed_delta_eq_sub_witness :
    (Row.mk 0 5 5 5).delta = (Row.mk 0 5 5 5).disk_usage - 0 :=
  (feed_delta_eq_sub 0 0 [(0, 5)] (Row.mk 0 5 5 5) (by decide)).2 (by decide)

/-- C5: for a Monitor constructed with `initialDiskUsage = 1000`, feeding
measurements `1000, 1200, 1100, 1500` (at arbitrary times) produces
records whose `(disk_usage, delta, peak)` tuples are
`(1000,0,1000), (1200,200,1200), (1100,100,1200), (1500,500,1500)`. -/
theorem monitor_example_sequence (st n1 n2 n3 n4 : Nat) :
    (feed (Monitor.new st 1000)
        [(n1, 1000), (n2, 1200), (n3, 1100), (n4, 1500)]).map
      (fun r => (r.disk_usage, r.delta, r.peak)) =
    [(1000, 0, 1000), (1200, 200, 1200), (1100, 100, 1200), (1500, 500, 1500)] := by
  simp only [feed, Monitor.add_disk_usage, Monitor.new, Row.new, List.map]
  norm_num [wrap64]

/-! ### Lemmas about the size-measurement parser -/

theorem digitsVal_isDigit (bs : List Nat) (acc x : Nat)
    (h : digitsVal bs acc = some x) : ∀ b ∈ bs, 48 ≤ b ∧ b ≤ 57 := by
  induction bs generalizing acc with
  | nil => simp
  | cons a t ih =>
    intro b hb
    simp only [digitsVal] at h
    by_cases ha : 48 ≤ a ∧ a ≤ 57
    · rw [if_pos ha] at h
      rcases List.mem_cons.mp hb with hba | hbt
      · subst hba; exact ha
      · exact ih _ h b hbt
    · rw [if_neg ha] at h
      exact absurd h (by simp)

theorem digitsNum_isDigit (bs : List Nat) (x : Nat)
    (h : digitsNum bs = some x) : ∀ b ∈ bs, 48 ≤ b ∧ b ≤ 57 := by
  match bs with
  | [] => simp
  | a :: t => exact digitsVal_isDigit (a :: t) 0 x h

theorem parse_isize_no_tab (bs : List Nat) (v : Int)
    (h : parse_isize bs = some v) : ∀ b ∈ bs, b ≠ 9 := by
  match bs with
  | [] => simp
  | a :: t =>
    intro b hb
    simp only [parse_isize] at h
    by_cases ha1 : a = 43
    · rw [if_pos ha1] at h
      obtain ⟨n, hn, _⟩ := Option.bind_eq_some.mp h
      rcases List.mem_cons.mp hb with hba | hbt
      · omega
      · have := digitsNum_isDigit t n hn b hbt
        omega
    · rw [if_neg ha1] at h
      by_cases ha2 : a = 45
      · rw [if_pos ha2] at h
        obtain ⟨n, hn, _⟩ := Option.bind_eq_some.mp h
        rcases List.mem_cons.mp hb with hba | hbt
        · omega
        · have := digitsNum_isDigit t n hn b hbt
          omega
      · rw [if_neg ha2] at h
        obtain ⟨n, hn, _⟩ := Option.bind_eq_some.mp h
        have := digitsNum_isDigit (a :: t) n hn b hb
        omega

theorem memchr_append_first (c : Nat) (xs ys : List Nat)
    (h : ∀ b ∈ xs, b ≠ c) : memchr c (xs ++ c :: ys) = some xs.length := by
  induction xs with
  | nil => simp [memchr]
  | cons a t ih =>
    simp only [List.cons_append, memchr, List.append_eq]
    rw [if_neg (h a (by simp))]
    rw [ih (fun b hb => h b (by simp [hb]))]
    simp

theorem take_append_len (xs ys : List Nat) : (xs ++ ys).take xs.length = xs := by
  simp

/-- Shared helper: a leading field that parses as an `isize`, followed by
a tab and arbitrary trailing bytes, measures successfully to the parsed
value. -/
theorem get_disk_usage_field (field rest : List Nat) (v : Int)
    (h : parse_isize field = some v) :
    get_disk_usage (field ++ 9 :: rest) = MeasureOutcome.ok v := by
  have hno : ∀ b ∈ field, b ≠ 9 := parse_isize_no_tab field v h
  simp only [get_disk_usage, memchr_append_first 9 field rest hno,
    take_append_len, h]

theorem digitsVal_append (xs ys : List Nat) (acc : Nat) :
    digitsVal (xs ++ ys) acc =
      (digitsVal xs acc).bind fun a => digitsVal ys a := by
  induction xs generalizing acc with
  | nil => simp [digitsVal]
  | cons b t ih =>
    simp only [List.cons_append, digitsVal, List.append_eq]
    by_cases hb : 48 ≤ b ∧ b ≤ 57
    · rw [if_pos hb, if_pos hb, ih]
    · rw [if_neg hb, if_neg hb]
      rfl

theorem digitsVal_encNat (n : Nat) :
    ∀ acc, digitsVal (encNat n) acc =
      some (acc * 10 ^ (encNat n).length + n) := by
  induction n using Nat.strong_induction_on with
  | _ n ih =>
    intro acc
    rw [encNat]
    by_cases h : n < 10
    · rw [dif_pos h]
      simp only [digitsVal, List.length_cons, List.length_nil]
      rw [if_pos (by omega)]
      congr 1
      have h10 : (10 : Nat) ^ (0 + 1) = 10 := by norm_num
      rw [h10]
      omega
    · rw [dif_neg h]
      rw [digitsVal_append]
      rw [ih (n / 10) (Nat.div_lt_self (by omega) (by omega))]
      simp only [Option.some_bind, digitsVal]
      rw [if_pos (by omega)]
      simp only [List.length_append, List.length_cons, List.length_nil]
      congr 1
      have hm : 10 * (n / 10) + n % 10 = n := Nat.div_add_mod n 10
      have hp : 10 ^ ((encNat (n / 10)).length + (0 + 1)) =
          10 ^ (encNat (n / 10)).length * 10 := by
        rw [pow_succ]
      rw [hp]
      ring_nf
      omega

theorem encNat_ne_nil_head_digit (n : Nat) :
    ∃ b t, encNat n = b :: t ∧ 48 ≤ b ∧ b ≤ 57 := by
  induction n using Nat.strong_induction_on with
  | _ n ih =>
    rw [encNat]
    by_cases h : n < 10
    · rw [dif_pos h]
      exact ⟨48 + n, [], rfl, by omega, by omega⟩
    · rw [dif_neg h]
      obtain ⟨b, t, he, hb1, hb2⟩ :=
        ih (n / 10) (Nat.div_lt_self (by omega) (by omega))
      exact ⟨b, t ++ [48 + n % 10], by rw [he]; rfl, hb1, hb2⟩

theorem digitsNum_encNat (n : Nat) : digitsNum (encNat n) = some n := by
  obtain ⟨b, t, he, _, _⟩ := encNat_ne_nil_head_digit n
  have hv := digitsVal_encNat n 0
  rw [he] at hv ⊢
  simp only [digitsNum]
  rw [hv]
  simp

theorem bind_some_val (a : Nat) (f : Nat → Option Int) :
    (some a).bind f = f a := rfl

theorem parse_isize_neg_head (l : List Nat) :
    parse_isize (45 :: l) =
      (digitsNum l).bind fun n =>
        if (n : Int) ≤ 2 ^ 63 then some (-(n : Int)) else none := rfl

theorem parse_isize_encInt (v : Int) (h1 : -(2 ^ 63) ≤ v) (h2 : v < 2 ^ 63) :
    parse_isize (encInt v) = some v := by
  unfold encInt
  by_cases hv : v < 0
  · rw [if_pos hv]
    have hto : ((-v).toNat : Int) = -v := Int.toNat_of_nonneg (by omega)
    rw [parse_isize_neg_head]
    rw [digitsNum_encNat]
    rw [bind_some_val]
    split
    · rw [hto]
      simp
    · omega
  · rw [if_neg hv]
    obtain ⟨b, t, he, hb1, hb2⟩ := encNat_ne_nil_head_digit v.toNat
    have hto : (v.toNat : Int) = v := Int.toNat_of_nonneg (by omega)
    rw [he]
    simp only [parse_isize]
    rw [if_neg (by omega), if_neg (by omega)]
    rw [← he, digitsNum_encNat]
    rw [bind_some_val]
    split
    · rw [hto]
    · omega

/-! ### Claims about the size measurement -/

/-- C7: `get_disk_usage` parses only the leading numeric field up to the
first tab; for every output of the form field-tab-trailing-bytes where
the field parses as an `isize`, it succeeds with that value regardless
of the trailing bytes. -/
theorem get_disk_usage_parses_leading_field (field rest : List Nat) (v : Int)
    (h : parse_isize field = some v) :
    get_disk_usage (field ++ 9 :: rest) = MeasureOutcome.ok v :=
  get_disk_usage_field field rest v h

/-- Witness for C7: field `1000` followed by a tab and trailing bytes. -/
theorem get_disk_usage_parses_leading_field_witness :
    get_disk_usage ([49, 48, 48, 48] ++ 9 :: [46, 47, 120]) =
      MeasureOutcome.ok 1000 :=
  get_disk_usage_parses_leading_field [49, 48, 48, 48] [46, 47, 120] 1000
    (by decide)

/-- C9 counterexample: the decimal field `9223372036854775808` (`2^63`,
one past `isize::MAX`), followed by a tab, is rejected by
`parse::<isize>`, so `get_disk_usage` returns an error instead of the
value: the measurement does not admit integers of arbitrary magnitude. -/
theorem get_disk_usage_overflow_cex :
    get_disk_usage
        ([57, 50, 50, 51, 51, 55, 50, 48, 51, 54, 56, 53, 52, 55, 55, 53,
          56, 48, 56] ++ [9]) = MeasureOutcome.errReturn ∧
    MeasureOutcome.errReturn ≠ MeasureOutcome.ok (2 ^ 63) := by decide

/-- C9 amended: the measurement value range is that of `isize` (64-bit):
for every integer `v` with `-2^63 ≤ v < 2^63` appearing in decimal as
the leading tab-delimited field, `get_disk_usage` returns `Ok(v)`. -/
theorem get_disk_usage_isize_values (v : Int) (rest : List Nat)
    (h1 : -(2 ^ 63) ≤ v) (h2 : v < 2 ^ 63) :
    get_disk_usage (encInt v ++ 9 :: rest) = MeasureOutcome.ok v :=
  get_disk_usage_field (encInt v) rest v (parse_isize_encInt v h1 h2)

/-- Witness for C9 amended at `v = -27`. -/
theorem get_disk_usage_isize_values_witness :
    -(2 ^ 63) ≤ (-27 : Int) ∧ (-27 : Int) < 2 ^ 63 ∧
    get_disk_usage (encInt (-27) ++ 9 :: []) = MeasureOutcome.ok (-27) :=
  ⟨by decide, by decide,
   get_disk_usage_isize_values (-27) [] (by decide) (by decide)⟩

/-! ### Lemmas about the run traces -/

theorem writtenRows_cons_openSink (t : List Effect) :
    writtenRows (Effect.openSink :: t) = writtenRows t := rfl

theorem writtenRows_cons_spawnChild (t : List Effect) :
    writtenRows (Effect.spawnChild :: t) = writtenRows t := rfl

theorem writtenRows_cons_measure (i : Nat) (t : List Effect) :
    writtenRows (Effect.measure i :: t) = writtenRows t := rfl

theorem writtenRows_cons_sleep (t : List Effect) :
    writtenRows (Effect.sleep :: t) = writtenRows t := rfl

theorem writtenRows_cons_write (r : Row) (t : List Effect) :
    writtenRows (Effect.writeRow r :: t) = r :: writtenRows t := rfl

theorem sleepCount_cons_openSink (t : List Effect) :
    sleepCount (Effect.openSink :: t) = sleepCount t := rfl

theorem sleepCount_cons_spawnChild (t : List Effect) :
    sleepCount (Effect.spawnChild :: t) = sleepCount t := rfl

theorem sleepCount_cons_measure (i : Nat) (t : List Effect) :
    sleepCount (Effect.measure i :: t) = sleepCount t := rfl

theorem sleepCount_cons_write (r : Row) (t : List Effect) :
    sleepCount (Effect.writeRow r :: t) = sleepCount t := rfl

theorem sleepCount_cons_sleep (t : List Effect) :
    sleepCount (Effect.sleep :: t) = sleepCount t + 1 := rfl

theorem monitorThread_zero_fst (m : Monitor) (i : Nat) (env : Env) (v : Int)
    (hv : get_disk_usage (env.duOutput i) = MeasureOutcome.ok v) :
    (monitorThread m i 0 env).1 =
      [Effect.measure i, Effect.writeRow (m.add_disk_usage (env.nows i) v).2] := by
  unfold monitorThread
  rw [hv]

theorem monitorThread_zero_snd (m : Monitor) (i : Nat) (env : Env) (v : Int)
    (hv : get_disk_usage (env.duOutput i) = MeasureOutcome.ok v) :
    (monitorThread m i 0 env).2 = RunResult.ok := by
  unfold monitorThread
  rw [hv]

theorem monitorThread_succ_fst (m : Monitor) (i k : Nat) (env : Env) (v : Int)
    (hv : get_disk_usage (env.duOutput i) = MeasureOutcome.ok v) :
    (monitorThread m i (k + 1) env).1 =
      Effect.measure i :: Effect.writeRow (m.add_disk_usage (env.nows i) v).2 ::
        Effect.sleep ::
        (monitorThread (m.add_disk_usage (env.nows i) v).1 (i + 1) k env).1 := by
  conv_lhs => unfold monitorThread
  rw [hv]

theorem monitorThread_succ_snd (m : Monitor) (i k : Nat) (env : Env) (v : Int)
    (hv : get_disk_usage (env.duOutput i) = MeasureOutcome.ok v) :
    (monitorThread m i (k + 1) env).2 =
      (monitorThread (m.add_disk_usage (env.nows i) v).1 (i + 1) k env).2 := by
  conv_lhs => unfold monitorThread
  rw [hv]

theorem monitorThread_ok (env : Env) (alive : Nat) :
    ∀ m i,
      (∀ j, i ≤ j → j ≤ i + alive →
        ∃ v, get_disk_usage (env.duOutput j) = MeasureOutcome.ok v) →
      (monitorThread m i alive env).2 = RunResult.ok ∧
      (writtenRows (monitorThread m i alive env).1).length = alive + 1 ∧
      sleepCount (monitorThread m i alive env).1 = alive ∧
      ∃ pre r, (monitorThread m i alive env).1 =
        pre ++ [Effect.measure (i + alive), Effect.writeRow r] := by
  induction alive with
  | zero =>
    intro m i h
    obtain ⟨v, hv⟩ := h i (le_refl i) (by omega)
    rw [monitorThread_zero_fst m i env v hv, monitorThread_zero_snd m i env v hv]
    refine ⟨rfl, rfl, rfl, [], (m.add_disk_usage (env.nows i) v).2, by simp⟩
  | succ k ih =>
    intro m i h
    obtain ⟨v, hv⟩ := h i (le_refl i) (by omega)
    have hih := ih ((m.add_disk_usage (env.nows i) v).1) (i + 1)
      (fun j hj1 hj2 => h j (by omega) (by omega))
    rw [monitorThread_succ_fst m i k env v hv, monitorThread_succ_snd m i k env v hv]
    refine ⟨hih.1, ?_, ?_, ?_⟩
    · simp only [writtenRows_cons_measure, writtenRows_cons_write,
        writtenRows_cons_sleep, List.length_cons]
      rw [hih.2.1]
    · simp only [sleepCount_cons_measure, sleepCount_cons_write,
        sleepCount_cons_sleep]
      rw [hih.2.2.1]
    · obtain ⟨pre, r, hpre⟩ := hih.2.2.2
      refine ⟨Effect.measure i ::
          Effect.writeRow ((m.add_disk_usage (env.nows i) v).2) ::
          Effect.sleep :: pre, r, ?_⟩
      rw [hpre]
      have hidx : i + 1 + k = i + (k + 1) := by omega
      rw [hidx]
      simp

theorem runMain_fst (env : Env) (hp : env.pathExists = true)
    (hd : env.pathIsDir = true) (v0 : Int)
    (hv0 : get_disk_usage (env.duOutput 0) = MeasureOutcome.ok v0) :
    (runMain env).1 =
      Effect.openSink :: Effect.measure 0 :: Effect.spawnChild ::
        (monitorThread (Monitor.new env.startTime v0) 1 env.aliveChecks env).1 := by
  conv_lhs => unfold runMain
  rw [hp, hd, hv0]
  rfl

theorem runMain_snd (env : Env) (hp : env.pathExists = true)
    (hd : env.pathIsDir = true) (v0 : Int)
    (hv0 : get_disk_usage (env.duOutput 0) = MeasureOutcome.ok v0) :
    (runMain env).2 =
      (monitorThread (Monitor.new env.startTime v0) 1 env.aliveChecks env).2 := by
  conv_lhs => unfold runMain
  rw [hp, hd, hv0]
  rfl

/-! ### Claims about the run -/

/-- C3: in a run with a valid path whose measurements all succeed,
exactly one measure-and-record cycle is performed after the child's exit
is first detected (after `aliveChecks` alive-polls there are
`aliveChecks + 1` records but only `aliveChecks` sleeps), and the
post-exit cycle is the trace's final two effects (measure then record,
with no sleep after); hence even `aliveChecks = 0` yields one record. -/
theorem post_exit_final_record (env : Env)
    (hp : env.pathExists = true) (hd : env.pathIsDir = true)
    (hm : ∀ j, j ≤ env.aliveChecks + 1 →
      ∃ v, get_disk_usage (env.duOutput j) = MeasureOutcome.ok v) :
    (runMain env).2 = RunResult.ok ∧
    (writtenRows (runMain env).1).length = env.aliveChecks + 1 ∧
    sleepCount (runMain env).1 = env.aliveChecks ∧
    ∃ pre r, (runMain env).1 =
      pre ++ [Effect.measure (env.aliveChecks + 1), Effect.writeRow r] := by
  obtain ⟨v0, hv0⟩ := hm 0 (by omega)
  have hloop := monitorThread_ok env env.aliveChecks (Monitor.new env.startTime v0) 1
    (fun j hj1 hj2 => hm j (by omega))
  rw [runMain_fst env hp hd v0 hv0, runMain_snd env hp hd v0 hv0]
  refine ⟨hloop.1, ?_, ?_, ?_⟩
  · simp only [writtenRows_cons_openSink, writtenRows_cons_measure,
      writtenRows_cons_spawnChild]
    exact hloop.2.1
  · simp only [sleepCount_cons_openSink, sleepCount_cons_measure,
      sleepCount_cons_spawnChild]
    exact hloop.2.2.1
  · obtain ⟨pre, r, hpre⟩ := hloop.2.2.2
    rw [Nat.add_comm 1 env.aliveChecks] at hpre
    refine ⟨Effect.openSink :: Effect.measure 0 :: Effect.spawnChild :: pre, r, ?_⟩
    rw [hpre]
    simp

/-- A concrete fully-successful run: valid path, `du` always writes the
bytes of `0` followed by a tab, child has exited at the first poll. -/
def envOk : Env :=
  { pathExists := true
    pathIsDir := true
    startTime := 0
    duOutput := fun _ => [48, 9]
    nows := fun _ => 0
    aliveChecks := 0 }

/-- Witness for C3 on `envOk`: the run succeeds with exactly one record. -/
theorem post_exit_final_record_witness :
    (runMain envOk).2 = RunResult.ok ∧
    (writtenRows (runMain envOk).1).length = 1 :=
  ⟨(post_exit_final_record envOk rfl rfl (fun _j _hj => ⟨0, rfl⟩)).1,
   (post_exit_final_record envOk rfl rfl (fun _j _hj => ⟨0, rfl⟩)).2.1⟩

/-- C6: if the target path does not exist or is not a directory, the run
fails with a config error and its effect trace is empty: no sink is
opened, no measurement is taken, no child is spawned, and nothing is
written. -/
theorem invalid_path_config_error (env : Env)
    (h : env.pathExists = false ∨ env.pathIsDir = false) :
    runMain env = ([], RunResult.configError) := by
  unfold runMain
  rcases h with h | h
  · rw [h]
    rfl
  · cases hE : env.pathExists with
    | false => rfl
    | true =>
      rw [h]
      rfl

/-- A run configuration whose target path does not exist. -/
def envBadPath : Env :=
  { pathExists := false
    pathIsDir := true
    startTime := 0
    duOutput := fun _ => []
    nows := fun _ => 0
    aliveChecks := 0 }

/-- Witness for C6 on `envBadPath`. -/
theorem invalid_path_config_error_witness :
    runMain envBadPath = ([], RunResult.configError) :=
  invalid_path_config_error envBadPath (Or.inl rfl)

theorem get_disk_usage_some_tab (out : List Nat) (j : Nat)
    (h1 : memchr 9 out = some j) :
    get_disk_usage out =
      match parse_isize (out.take j) with
      | none => MeasureOutcome.errReturn
      | some v => MeasureOutcome.ok v := by
  unfold get_disk_usage
  rw [h1]

/-- C2 counterexample: on the malformed `du` output `"mal"` (no tab at
all), `get_disk_usage` panics via `.expect` instead of returning a
`MeasurementError` error value, refuting the claim that every malformed
output yields a returned error. -/
theorem get_disk_usage_no_tab_panics_cex :
    get_disk_usage [109, 97, 108] = MeasureOutcome.panicked ∧
    MeasureOutcome.panicked ≠ MeasureOutcome.errReturn := by decide

/-- C2 amended: if the tool's output contains no tab, `get_disk_usage`
panics (it does not return an error value); if it contains a tab but the
leading field does not parse as an `isize`, `get_disk_usage` returns an
error value; in either failure the monitoring loop stops at the failing
`du` invocation and emits no record for that attempt. -/
theorem measurement_failure_no_record (env : Env) (m : Monitor)
    (i alive : Nat) :
    (∀ out : List Nat, memchr 9 out = none →
        get_disk_usage out = MeasureOutcome.panicked) ∧
    (∀ out : List Nat, ∀ j, memchr 9 out = some j →
        parse_isize (out.take j) = none →
        get_disk_usage out = MeasureOutcome.errReturn) ∧
    (get_disk_usage (env.duOutput i) = MeasureOutcome.errReturn →
        monitorThread m i alive env =
          ([Effect.measure i], RunResult.measureError)) ∧
    (get_disk_usage (env.duOutput i) = MeasureOutcome.panicked →
        monitorThread m i alive env =
          ([Effect.measure i], RunResult.panicked)) := by
  refine ⟨?_, ?_, ?_, ?_⟩
  · intro out h
    unfold get_disk_usage
    rw [h]
  · intro out j h1 h2
    rw [get_disk_usage_some_tab out j h1, h2]
  · intro h
    cases alive with
    | zero =>
      unfold monitorThread
      rw [h]
    | succ k =>
      conv_lhs => unfold monitorThread
      rw [h]
  · intro h
    cases alive with
    | zero =>
      unfold monitorThread
      rw [h]
    | succ k =>
      conv_lhs => unfold monitorThread
      rw [h]

/-- A run configuration whose `du` output has no tab. -/
def envNoTab : Env :=
  { pathExists := true
    pathIsDir := true
    startTime := 0
    duOutput := fun _ => [109]
    nows := fun _ => 0
    aliveChecks := 0 }

/-- Witness for C2 amended: the no-tab output panics with no record; the
output `"5x"` before a tab returns an error value. -/
theorem measurement_failure_no_record_witness :
    monitorThread (Monitor.new 0 0) 0 0 envNoTab =
      ([Effect.measure 0], RunResult.panicked) ∧
    get_disk_usage [109] = MeasureOutcome.panicked ∧
    get_disk_usage [53, 120, 9] = MeasureOutcome.errReturn :=
  ⟨(measurement_failure_no_record envNoTab (Monitor.new 0 0) 0 0).2.2.2
     (by decide),
   (measurement_failure_no_record envNoTab (Monitor.new 0 0) 0 0).1 [109]
     (by decide),
   (measurement_failure_no_record envNoTab (Monitor.new 0 0) 0 0).2.1
     [53, 120, 9] 2 (by decide) (by decide)⟩

/-- Witness for C5 at concrete sampling instants. -/
theorem monitor_example_sequence_witness :
    (feed (Monitor.new 0 1000)
        [(0, 1000), (1, 1200), (2, 1100), (3, 1500)]).map
      (fun r => (r.disk_usage, r.delta, r.peak)) =
    [(1000, 0, 1000), (1200, 200, 1200), (1100, 100, 1200),
     (1500, 500, 1500)] :=
  monitor_example_sequence 0 0 1 2 3

/-- Witness for C8 at a concrete monitor state. -/
theorem add_disk_usage_frame_witness :
    ((Monitor.mk 7 3 3).add_disk_usage 9 5).1.start_time = 7 ∧
    ((Monitor.mk 7 3 3).add_disk_usage 9 5).1.initial_disk_usage = 3 ∧
    ((Monitor.mk 7 3 3).add_disk_usage 9 5).1 =
      { Monitor.mk 7 3 3 with peak_disk_usage := max 3 5 } :=
  add_disk_usage_frame (Monitor.mk 7 3 3) 9 5
